import Mathlib

/-!
Verification of the incremental crawl-and-classify pipeline of the
fact-checking backend (`backend/app/services/crawler_pipeline.py`,
`database_service.py`, `crawler.py`, `enhanced_prediction_service.py`,
`fake_news_service.py`).

The Python services are shallowly embedded: MongoDB's `reddit_posts`
collection (unique index on `post_id`, see `core/database.py`) is a list of
records, the `crawl_metadata` collection is a map from subreddit name to an
optional timestamp, timestamps are seconds since the epoch as naturals, and
the network (Reddit fetches, HuggingFace / DeepSeek calls) is supplied by
oracles inside an environment record.  Exceptions are `Except` values;
the oracles decide where the real code would raise.
-/

namespace FactChecking

/-- Python's `str.upper()` (used by `_get_summary_label` on both labels),
embedded structurally as character-wise upper-casing so that concrete
labels evaluate inside the kernel. -/
def strUpper (s : String) : String := ⟨s.data.map Char.toUpper⟩

/-- A stored prediction record.  The real record persisted by
`PredictionService.update_post_prediction` carries further diagnostic
fields (`hf`, `gemini_classifier`, `analysis`, ...); the claims only
concern `label` and `confidence`, so the embedding keeps those two. -/
structure Prediction where
  label : String
  confidence : ℚ
  deriving Repr, DecidableEq

/-- One ingested Reddit post (`app/models/reddit.py`), restricted to the
fields the pipeline logic reads: the unique key `post_id`, the origin
timestamp `created_utc` (seconds since epoch), and the optional attached
`prediction`.  Content/engagement fields are carried opaquely by `title`. -/
structure RedditPost where
  post_id : String
  title : String
  created_utc : Nat
  prediction : Option Prediction := none
  deriving Repr, DecidableEq

/-- The `reddit_posts` collection: a list of documents; the unique index on
`post_id` is enforced by `insert_post` below (conflict-as-signal). -/
abbrev PostDB := List RedditPost

/-- Embeds `RedditPostService.insert_post`: try to insert one document.
A `DuplicateKeyError` from the unique `post_id` index is caught and
reported as `false`; any other exception (modelled by the `fail` oracle)
is re-raised.  Returns the new collection contents and the boolean. -/
def insert_post (db : PostDB) (post : RedditPost) (fail : Bool) :
    Except String (PostDB × Bool) :=
  if fail then .error "insert failed"
  else if db.any (fun p => p.post_id == post.post_id) then .ok (db, false)
  else .ok (db ++ [post], true)

/-- Statistics returned by `RedditPostService.insert_posts_batch`. -/
structure BatchStats where
  inserted : Nat
  duplicates : Nat
  errors : Nat
  deriving Repr, DecidableEq

/-- Embeds `RedditPostService.insert_posts_batch`: insert each post in turn via
`insert_post`; `true` increments `inserted`, `false` increments
`duplicates`, and a raised exception increments `errors` and leaves the
collection unchanged — the loop never aborts.  (The Python loop keeps
running counters; the recursion here tallies the same counts.) -/
def insert_posts_batch (db : PostDB) (posts : List RedditPost)
    (fail : RedditPost → Bool) : PostDB × BatchStats :=
  match posts with
  | [] => (db, ⟨0, 0, 0⟩)
  | post :: rest =>
    match insert_post db post (fail post) with
    | .ok (db', true) =>
        let r := insert_posts_batch db' rest fail
        (r.1, ⟨r.2.inserted + 1, r.2.duplicates, r.2.errors⟩)
    | .ok (db', false) =>
        let r := insert_posts_batch db' rest fail
        (r.1, ⟨r.2.inserted, r.2.duplicates + 1, r.2.errors⟩)
    | .error _ =>
        let r := insert_posts_batch db rest fail
        (r.1, ⟨r.2.inserted, r.2.duplicates, r.2.errors + 1⟩)

/-- Embeds `PredictionService.update_post_prediction`: `$set` the `prediction`
field on the document matching `post_id`; the boolean reports whether a
document matched. -/
def update_post_prediction (db : PostDB) (pid : String) (pred : Prediction) :
    PostDB × Bool :=
  (db.map (fun p => if p.post_id == pid then { p with prediction := some pred } else p),
   db.any (fun p => p.post_id == pid))

/-- Embeds `CrawlMetadataService`: the `crawl_metadata` collection keyed by
subreddit name; `none` means the feed has never been crawled. -/
abbrev WatermarkDB := String → Option Nat

/-- Embeds `CrawlMetadataService.update_last_crawl_time`: upsert the feed's
`last_crawl_time`. -/
def update_last_crawl_time (wm : WatermarkDB) (feed : String) (t : Nat) :
    WatermarkDB :=
  fun f => if f == feed then some t else wm f

/-- Embeds `EnhancedPredictionService._get_summary_label`: reconcile the
HuggingFace label and the DeepSeek ("gemini") classifier label.  Both are
upper-cased first, exactly as in the source; the nested Python
conditionals are flattened (an inner `if` that falls through continues to
the final `return "UNCERTAIN"`). -/
def getSummaryLabel (hfLabel geminiLabel : String) : String :=
  let hf := strUpper hfLabel
  let gem := strUpper geminiLabel
  if hf = gem ∧ (hf = "FAKE" ∨ hf = "REAL") then hf
  else if ((hf = "FAKE" ∨ hf = "REAL") ∧ (gem = "FAKE" ∨ gem = "REAL")) ∧ ¬(hf = gem) then
    "UNCERTAIN"
  else if (hf = "UNCERTAIN" ∨ gem = "UNCERTAIN") ∧
      ((if gem = "UNCERTAIN" then hf else gem) = "FAKE" ∨
       (if gem = "UNCERTAIN" then hf else gem) = "REAL") then
    (if gem = "UNCERTAIN" then hf else gem)
  else "UNCERTAIN"

/-- The reconciliation truth table exactly as the specification words it
(§8 Reconciliation logic / §4.2 step 5), for comparison with
`getSummaryLabel`: agreement on FAKE/REAL keeps the label, FAKE-vs-REAL
disagreement is UNCERTAIN, one UNCERTAIN defers to the other when that
other is FAKE/REAL, everything else is UNCERTAIN. -/
def reconcileSpec (p s : String) : String :=
  if (p = "FAKE" ∧ s = "FAKE") ∨ (p = "REAL" ∧ s = "REAL") then p
  else if (p = "FAKE" ∧ s = "REAL") ∨ (p = "REAL" ∧ s = "FAKE") then "UNCERTAIN"
  else if p = "UNCERTAIN" ∧ (s = "FAKE" ∨ s = "REAL") then s
  else if s = "UNCERTAIN" ∧ (p = "FAKE" ∨ p = "REAL") then p
  else "UNCERTAIN"

/-- Result of the HuggingFace step inside `analyze_news` (label plus
confidence; the other dict keys are diagnostics). -/
structure HFResult where
  label : String
  confidence : ℚ
  deriving Repr, DecidableEq

/-- Result of the DeepSeek classifier step inside `analyze_news`. -/
structure GeminiResult where
  label : String
  confidence : ℚ
  deriving Repr, DecidableEq

/-- The dict returned by `EnhancedPredictionService.analyze_news`,
restricted to the two classifier outputs that `format_for_database` and
`_get_summary_label` read. -/
structure AnalysisResult where
  hf : HFResult
  gemini_classifier : GeminiResult
  deriving Repr, DecidableEq

/-- Embeds `EnhancedPredictionService.analyze_news`: step 1 calls the HuggingFace
service (`none` models a failed call) and on failure substitutes the
degraded result `{label: "UNKNOWN", confidence: 0.0}`; step 2 calls the
DeepSeek classifier and on a raised exception substitutes
`{label: "uncertain", confidence: 0.0}`.  The workflow always returns a
result — it never aborts on a classifier failure. -/
def analyze_news (hfOut : Option HFResult) (geminiOut : Except String GeminiResult) :
    AnalysisResult :=
  { hf := hfOut.getD { label := "UNKNOWN", confidence := 0 },
    gemini_classifier :=
      match geminiOut with
      | .ok r => r
      | .error _ => { label := "uncertain", confidence := 0 } }

/-- Embeds `EnhancedPredictionService.format_for_database`: the persisted record's
`label` is the reconciled summary label and its `confidence` is the
HuggingFace confidence. -/
def format_for_database (r : AnalysisResult) : Prediction :=
  { label := getSummaryLabel r.hf.label r.gemini_classifier.label,
    confidence := r.hf.confidence }

/-- Embeds `RedditCrawler.crawl_historical`: iterate the subreddit's top posts
(the stream is bounded by `limit=limit_total`), keep a post when its age in
whole days divided by 30 is at most `months_back` (the Python float
comparison `post_age_days / 30 <= months_back` on integers is exactly
`days ≤ 30 * months_back`), and convert it with `_process_post`
(modelled by `proc`; `none` models a skipped/failed post). -/
def crawl_historical (now : Nat) (months_back limit_total : Nat)
    (raw : List RedditPost) (proc : RedditPost → Option RedditPost) :
    List RedditPost :=
  (raw.take limit_total).filterMap (fun p =>
    if (now - p.created_utc) / 86400 ≤ 30 * months_back then proc p else none)

/-- The per-feed statistics entry recorded into
`all_stats["subreddits"][name]` by a successful feed iteration. -/
structure FeedOutcome where
  crawled : Nat
  inserted : Nat
  duplicates : Nat
  errors : Nat
  predicted : Nat
  deriving Repr, DecidableEq

/-- The network / clock environment for one feed's iteration of
`CrawlerPipeline.run_incremental_crawl`.  `recent` is what
`crawl_for_analysis` returns, `rawHistorical`/`procPost` feed
`crawl_historical`, `hfPredict` is `fake_news_detector.predict_post`
(`none` = failed), `enhanced` is
`enhanced_prediction_service.analyze_post` (`none` = failed),
`insertFail` marks posts whose store insert raises, `nowStart` and
`nowUpdate` are the `datetime.now()` readings at the start of the feed and
at the watermark write, and `crash` models an exception escaping to the
per-feed `except` handler. -/
structure FeedEnv where
  nowStart : Nat
  nowUpdate : Nat
  recent : List RedditPost
  rawHistorical : List RedditPost
  procPost : RedditPost → Option RedditPost
  insertFail : RedditPost → Bool
  enableGemini : Bool
  hfPredict : RedditPost → Option Prediction
  enhanced : RedditPost → Option AnalysisResult
  crash : Option String

/-- The item list that survives step 2/3 of a feed iteration: on the
incremental path (a watermark exists) the fetched recent posts filtered by
`post.created_utc > last_crawl_time`; on the first-time path the bounded
historical crawl. -/
def survivors (env : FeedEnv) (months_back limit_total : Nat)
    (wm : Option Nat) : List RedditPost :=
  match wm with
  | some t => env.recent.filter (fun p => t < p.created_utc)
  | none => crawl_historical env.nowStart months_back limit_total
      env.rawHistorical env.procPost

/-- Step 4's auto-prediction loop (`crawler_pipeline.py` lines 117–173):
take the first `inserted`-many posts without a prediction, classify each —
via `analyze_post`+`format_for_database` when
`enable_gemini_in_background` is set, else via the HuggingFace-only
`predict_post` — and persist the prediction; a failed classification
(`None`) logs a warning and `continue`s, persisting nothing for that post
and not counting it as predicted.  Returns the updated collection and
`predicted_count`. -/
def predictLoop (enableGemini : Bool) (db : PostDB) (posts : List RedditPost)
    (nInserted : Nat) (enhanced : RedditPost → Option AnalysisResult)
    (hf : RedditPost → Option Prediction) : PostDB × Nat :=
  let newly := (posts.filter (fun p => p.prediction = none)).take nInserted
  newly.foldl
    (fun acc post =>
      match (if enableGemini then (enhanced post).map format_for_database
             else hf post) with
      | none => acc
      | some pred =>
          ((update_post_prediction acc.1 post.post_id pred).1, acc.2 + 1))
    (db, 0)

/-- One feed's iteration of the pipeline body (`crawler_pipeline.py`
lines 56–216): obtain the surviving posts, then — only when that list is
non-empty — batch-insert them, run the auto-prediction loop when anything
was inserted, and upsert the feed's watermark to `datetime.now()`; when
the list is empty, record an all-zero stats entry and perform no insert
and no watermark write.  The middle component of the result is the
watermark write performed: `some t` when `update_last_crawl_time` was
called with `t`, `none` when it was not called at all.  `.error` is an
exception reaching the per-feed handler.  (Store writes themselves are
modelled as succeeding; `update_last_crawl_time`'s internal exception
handler is not a behaviour any claim depends on.) -/
def processFeed (env : FeedEnv) (months_back limit_total : Nat)
    (wm : Option Nat) (db : PostDB) :
    Except String (PostDB × Option Nat × FeedOutcome) :=
  match env.crash with
  | some msg => .error msg
  | none =>
    let posts := survivors env months_back limit_total wm
    if posts.isEmpty then
      .ok (db, none, ⟨0, 0, 0, 0, 0⟩)
    else
      let ins := insert_posts_batch db posts env.insertFail
      let pr :=
        if 0 < ins.2.inserted then
          predictLoop env.enableGemini ins.1 posts ins.2.inserted
            env.enhanced env.hfPredict
        else (ins.1, 0)
      .ok (pr.1, some env.nowUpdate,
        ⟨posts.length, ins.2.inserted, ins.2.duplicates, ins.2.errors, pr.2⟩)

/-- The `for subreddit_name in settings.subreddit_list` loop: each feed is
processed independently; an exception from one feed is caught, recorded as
that feed's stats entry, and the loop `continue`s with the remaining
feeds.  Returns the final watermark store, the final post collection, and
the per-feed entries in order. -/
def crawlLoop (months_back limit_total : Nat) (env : String → FeedEnv) :
    WatermarkDB → PostDB → List String →
    WatermarkDB × PostDB × List (String × Except String FeedOutcome)
  | wm, db, [] => (wm, db, [])
  | wm, db, feed :: rest =>
    match processFeed (env feed) months_back limit_total (wm feed) db with
    | .ok (db', wmFeed, oc) =>
        let wm' := match wmFeed with
          | some t => update_last_crawl_time wm feed t
          | none => wm
        let r := crawlLoop months_back limit_total env wm' db' rest
        (r.1, r.2.1, (feed, .ok oc) :: r.2.2)
    | .error e =>
        let r := crawlLoop months_back limit_total env wm db rest
        (r.1, r.2.1, (feed, .error e) :: r.2.2)

instance {ε α : Type} [DecidableEq ε] [DecidableEq α] :
    DecidableEq (Except ε α) := fun a b =>
  match a, b with
  | .ok x, .ok y =>
      if h : x = y then .isTrue (by rw [h])
      else .isFalse (fun hh => h (by cases hh; rfl))
  | .error x, .error y =>
      if h : x = y then .isTrue (by rw [h])
      else .isFalse (fun hh => h (by cases hh; rfl))
  | .ok _, .error _ => .isFalse (fun hh => Except.noConfusion hh)
  | .error _, .ok _ => .isFalse (fun hh => Except.noConfusion hh)

/-- The structured dict returned by `run_incremental_crawl`: a `status` of
`"completed"`, `"failed"` or `"skipped"`, the `reason`/`error` strings of
the skipped/failed shapes, and the per-subreddit stats entries. -/
structure CrawlResult where
  status : String
  reason : Option String
  error : Option String
  subreddits : List (String × Except String FeedOutcome)
  deriving Repr, DecidableEq

/-- Process-wide state of `CrawlerPipeline`: the `is_running` re-entry
flag plus the two persistent collections. -/
structure PipelineState where
  is_running : Bool
  wm : WatermarkDB
  db : PostDB

/-- Embeds `CrawlerPipeline.run_incremental_crawl`: if `is_running` is set,
return `{"status": "skipped", "reason": "already_running"}` immediately
with no side effect; otherwise set the flag, run the feed loop inside
`try`, catch any escaping exception (`outerCrash` oracle) as a
`"failed"` result, and clear the flag in `finally` on every exit path. -/
def run_incremental_crawl (months_back limit_total : Nat)
    (st : PipelineState) (feeds : List String) (env : String → FeedEnv)
    (outerCrash : Option String) : CrawlResult × PipelineState :=
  if st.is_running then
    ({ status := "skipped", reason := some "already_running",
       error := none, subreddits := [] }, st)
  else
    match outerCrash with
    | some e =>
      ({ status := "failed", reason := none, error := some e,
         subreddits := [] },
       { st with is_running := false })
    | none =>
      let r := crawlLoop months_back limit_total env st.wm st.db feeds
      ({ status := "completed", reason := none, error := none,
         subreddits := r.2.2 },
       { is_running := false, wm := r.1, db := r.2.1 })

/-- A document with the given `post_id` exists in the collection. -/
def hasId (db : PostDB) (pid : String) : Prop := ∃ p ∈ db, p.post_id = pid

/-- Order on optional watermarks: an absent watermark precedes everything,
and present watermarks compare by timestamp. -/
def wmLe : Option Nat → Option Nat → Prop
  | none, _ => True
  | some _, none => False
  | some a, some b => a ≤ b

/-- One whole pass over a single feed, viewed as a transition on the pair
(feed watermark, post collection): a pass whose feed iteration raises
leaves the state unchanged (the watermark write is skipped). -/
def passStep (months_back limit_total : Nat) (s : Option Nat × PostDB)
    (e : FeedEnv) : Option Nat × PostDB :=
  match processFeed e months_back limit_total s.1 s.2 with
  | .ok (db', some t, _) => (some t, db')
  | .ok (db', none, _) => (s.1, db')
  | .error _ => s

/-- A post created strictly before the watermark used in the zero-new-item
scenario below. -/
def stalePost : RedditPost := { post_id := "a", title := "old news", created_utc := 50 }

/-- Environment for the zero-new-item scenario: the only fetched post is
stale (created at 50, watermark 100), and the wall clock reads 200 at the
point where the watermark would be written. -/
def envZeroNew : FeedEnv :=
  { nowStart := 150, nowUpdate := 200, recent := [stalePost], rawHistorical := [],
    procPost := some, insertFail := fun _ => false, enableGemini := false,
    hfPredict := fun _ => none, enhanced := fun _ => none, crash := none }

/-- Idle pipeline whose only feed has watermark 100 and an empty store. -/
def stZeroNew : PipelineState :=
  { is_running := false, wm := fun _ => some 100, db := [] }

/-- A genuinely new post (created after the watermark 100). -/
def freshPost : RedditPost := { post_id := "x", title := "breaking", created_utc := 120 }

/-- Environment for the failed-primary-classifier scenario: HF-only mode
(the `enable_gemini_in_background` default), one new post fetched, and the
HuggingFace predictor failing on every post. -/
def envHfFail : FeedEnv :=
  { nowStart := 150, nowUpdate := 200, recent := [freshPost], rawHistorical := [],
    procPost := some, insertFail := fun _ => false, enableGemini := false,
    hfPredict := fun _ => none, enhanced := fun _ => none, crash := none }

/-- Idle pipeline for the failed-primary-classifier scenario: the feed has
watermark 100 and the store is empty. -/
def stHfFail : PipelineState :=
  { is_running := false, wm := fun _ => some 100, db := [] }

/-- A pipeline state whose re-entry flag is set (a pass in progress). -/
def stBusy : PipelineState :=
  { is_running := true, wm := fun _ => none, db := [] }

/-! ## Helper lemmas -/

lemma processFeed_ok_inv {env : FeedEnv} {months_back limit_total : Nat}
    {wm : Option Nat} {db db' : PostDB} {w : Option Nat} {oc : FeedOutcome}
    (h : processFeed env months_back limit_total wm db = .ok (db', w, oc)) :
    (survivors env months_back limit_total wm = [] ∧ w = none ∧
      db' = db ∧ oc = ⟨0, 0, 0, 0, 0⟩) ∨
    (survivors env months_back limit_total wm ≠ [] ∧
      w = some env.nowUpdate) := by
  unfold processFeed at h
  cases hc : env.crash with
  | some m => rw [hc] at h; exact Except.noConfusion h
  | none =>
    rw [hc] at h
    simp only at h
    by_cases he : (survivors env months_back limit_total wm).isEmpty
    · rw [if_pos he] at h
      injection h with h'
      injection h' with hdb h''
      injection h'' with hw hoc
      exact .inl ⟨List.isEmpty_iff.mp he, hw.symm, hdb.symm, hoc.symm⟩
    · rw [if_neg he] at h
      injection h with h'
      injection h' with hdb h''
      injection h'' with hw hoc
      exact .inr ⟨fun hnil => he (List.isEmpty_iff.mpr hnil), hw.symm⟩

lemma batch_stats_sum :
    ∀ (posts : List RedditPost) (db : PostDB) (fail : RedditPost → Bool),
      (insert_posts_batch db posts fail).2.inserted +
        (insert_posts_batch db posts fail).2.duplicates +
        (insert_posts_batch db posts fail).2.errors = posts.length := by
  intro posts
  induction posts with
  | nil => intro db fail; simp [insert_posts_batch]
  | cons post rest ih =>
    intro db fail
    cases h : insert_post db post (fail post) with
    | ok pr =>
      obtain ⟨db', b⟩ := pr
      cases b
      · simp only [insert_posts_batch, h]
        have := ih db' fail
        simp only [List.length_cons]
        omega
      · simp only [insert_posts_batch, h]
        have := ih db' fail
        simp only [List.length_cons]
        omega
    | error e =>
      simp only [insert_posts_batch, h]
      have := ih db fail
      simp only [List.length_cons]
      omega

/-! ## Claims -/

/-- C10: for every input list, `insert_posts_batch` accounts for each post
in exactly one of the three categories: `inserted + duplicates + errors`
equals the length of the input (nonnegativity is inherent in the `Nat`
counters). -/
theorem batch_insert_accounts_for_every_post
    (db : PostDB) (posts : List RedditPost) (fail : RedditPost → Bool) :
    (insert_posts_batch db posts fail).2.inserted +
      (insert_posts_batch db posts fail).2.duplicates +
      (insert_posts_batch db posts fail).2.errors = posts.length :=
  batch_stats_sum posts db fail

/-- C4: insert-if-absent is idempotent.  Starting from a collection with
no document under `post.post_id`, the first insert succeeds and reports
`true`, a second insert of any post with the same `post_id` reports
`false` — as a boolean, not a raised error — exactly one document with
that id is stored, and the batch insert counts the pair as one insert plus
one duplicate. -/
theorem insert_if_absent_idempotent
    (db : PostDB) (post post' : RedditPost)
    (hsame : post'.post_id = post.post_id)
    (habsent : db.any (fun p => p.post_id == post.post_id) = false) :
    insert_post db post false = .ok (db ++ [post], true) ∧
    insert_post (db ++ [post]) post' false = .ok (db ++ [post], false) ∧
    ((db ++ [post]).countP (fun p => p.post_id == post.post_id)) = 1 ∧
    insert_posts_batch db [post, post'] (fun _ => false) =
      (db ++ [post], ⟨1, 1, 0⟩) := by
  have habsent' : ∀ p ∈ db, ¬ (p.post_id == post.post_id) = true := by
    simpa using List.any_eq_false.mp habsent
  have h1 : insert_post db post false = .ok (db ++ [post], true) := by
    simp [insert_post, habsent]
  have h2 : insert_post (db ++ [post]) post' false = .ok (db ++ [post], false) := by
    simp [insert_post, hsame]
  refine ⟨h1, h2, ?_, ?_⟩
  · rw [List.countP_append]
    have hz : db.countP (fun p => p.post_id == post.post_id) = 0 :=
      List.countP_eq_zero.mpr habsent'
    simp [hz]
  · simp only [insert_posts_batch, h1, h2]

/-- Witness for C4 at a concrete collection and post pair. -/
theorem insert_if_absent_idempotent_witness :
    insert_post [] stalePost false = .ok ([stalePost], true) ∧
    insert_post [stalePost] { stalePost with title := "again" } false =
      .ok ([stalePost], false) ∧
    (([] ++ [stalePost] : PostDB).countP
      (fun p => p.post_id == stalePost.post_id)) = 1 ∧
    insert_posts_batch [] [stalePost, { stalePost with title := "again" }]
      (fun _ => false) = ([] ++ [stalePost], ⟨1, 1, 0⟩) := by
  have h := insert_if_absent_idempotent []
    stalePost { stalePost with title := "again" } (by rfl) (by rfl)
  simpa using h

lemma getSummaryLabel_eq_reconcileSpec (p s : String) :
    getSummaryLabel p s = reconcileSpec (strUpper p) (strUpper s) := by
  unfold getSummaryLabel reconcileSpec
  generalize strUpper p = a
  generalize strUpper s = b
  by_cases h1 : a = "FAKE" <;> by_cases h2 : a = "REAL" <;>
    by_cases h3 : a = "UNCERTAIN" <;> by_cases h4 : b = "FAKE" <;>
    by_cases h5 : b = "REAL" <;> by_cases h6 : b = "UNCERTAIN" <;>
    simp_all <;>
    first
      | exact ne_comm.mp h4
      | exact ne_comm.mp h5

/-- C5: the label-reconciliation function realises the specification's
truth table for every pair of classifier labels (compared after
upper-casing, as the source does): agreement on FAKE/REAL keeps the
label, FAKE-vs-REAL disagreement gives UNCERTAIN, a single UNCERTAIN
defers to the other label when it is FAKE/REAL, and every remaining pair
gives UNCERTAIN.  In particular (FAKE, FAKE) ↦ FAKE,
(FAKE, REAL) ↦ UNCERTAIN and (REAL, UNCERTAIN) ↦ REAL. -/
theorem reconciliation_truth_table (p s : String) :
    getSummaryLabel p s = reconcileSpec (strUpper p) (strUpper s) ∧
    getSummaryLabel "FAKE" "FAKE" = "FAKE" ∧
    getSummaryLabel "FAKE" "REAL" = "UNCERTAIN" ∧
    getSummaryLabel "REAL" "UNCERTAIN" = "REAL" :=
  ⟨getSummaryLabel_eq_reconcileSpec p s, by decide, by decide, by decide⟩

lemma insert_post_hasId {db db' : PostDB} {post : RedditPost} {fl b : Bool}
    (h : insert_post db post fl = .ok (db', b)) :
    ∀ pid, hasId db' pid → hasId db pid ∨ post.post_id = pid := by
  unfold insert_post at h
  split_ifs at h with h1 h2
  · injection h with h'
    injection h' with hdb hb
    subst hdb
    exact fun pid hp => .inl hp
  · injection h with h'
    injection h' with hdb hb
    subst hdb
    intro pid hp
    obtain ⟨p, hm, he⟩ := hp
    rcases List.mem_append.1 hm with hm' | hm'
    · exact .inl ⟨p, hm', he⟩
    · simp only [List.mem_singleton] at hm'
      subst hm'
      exact .inr he

lemma insert_posts_batch_hasId :
    ∀ (posts : List RedditPost) (db : PostDB) (fail : RedditPost → Bool)
      (pid : String),
      hasId (insert_posts_batch db posts fail).1 pid →
      hasId db pid ∨ ∃ p ∈ posts, p.post_id = pid := by
  intro posts
  induction posts with
  | nil =>
    intro db fail pid h
    exact .inl (by simpa [insert_posts_batch] using h)
  | cons post rest ih =>
    intro db fail pid h
    have step :
        ∀ db' : PostDB,
          (hasId (insert_posts_batch db' rest fail).1 pid) →
          (∀ q, hasId db' q → hasId db q ∨ post.post_id = q) →
          hasId db pid ∨ ∃ p ∈ post :: rest, p.post_id = pid := by
      intro db' h' hsub
      rcases ih db' fail pid h' with h'' | h''
      · rcases hsub pid h'' with h3 | h3
        · exact .inl h3
        · exact .inr ⟨post, by simp, h3⟩
      · obtain ⟨p, hp, he⟩ := h''
        exact .inr ⟨p, by simp [hp], he⟩
    cases hi : insert_post db post (fail post) with
    | ok pr =>
      obtain ⟨db', b⟩ := pr
      cases b
      · simp only [insert_posts_batch, hi] at h
        exact step db' h (fun q => insert_post_hasId hi q)
      · simp only [insert_posts_batch, hi] at h
        exact step db' h (fun q => insert_post_hasId hi q)
    | error e =>
      simp only [insert_posts_batch, hi] at h
      exact step db h (fun q hq => .inl hq)

lemma update_post_prediction_hasId (db : PostDB) (tpid : String)
    (pr : Prediction) (pid : String) :
    hasId (update_post_prediction db tpid pr).1 pid ↔ hasId db pid := by
  have hid : ∀ p : RedditPost,
      ((if p.post_id == tpid then { p with prediction := some pr } else p) :
        RedditPost).post_id = p.post_id := by
    intro p; split <;> rfl
  unfold update_post_prediction hasId
  constructor
  · rintro ⟨q, hq, he⟩
    obtain ⟨p, hp, rfl⟩ := List.mem_map.1 hq
    exact ⟨p, hp, by rw [← hid p]; exact he⟩
  · rintro ⟨p, hp, he⟩
    exact ⟨_, List.mem_map.2 ⟨p, hp, rfl⟩, by rw [hid p]; exact he⟩

lemma predictLoop_hasId (eg : Bool) (posts : List RedditPost) (n : Nat)
    (enh : RedditPost → Option AnalysisResult)
    (hf : RedditPost → Option Prediction) (db : PostDB) (pid : String) :
    hasId (predictLoop eg db posts n enh hf).1 pid ↔ hasId db pid := by
  unfold predictLoop
  generalize (posts.filter (fun p => p.prediction = none)).take n = l
  suffices H : ∀ acc : PostDB × Nat,
      hasId (l.foldl (fun acc post =>
        match (if eg then (enh post).map format_for_database else hf post) with
        | none => acc
        | some pred =>
            ((update_post_prediction acc.1 post.post_id pred).1, acc.2 + 1))
        acc).1 pid ↔ hasId acc.1 pid from H (db, 0)
  induction l with
  | nil => intro acc; simp
  | cons post rest ih =>
    intro acc
    simp only [List.foldl_cons]
    cases hc : (if eg then (enh post).map format_for_database else hf post) with
    | none => simp only [hc]; exact ih acc
    | some pred =>
      simp only [hc]
      rw [ih]
      exact update_post_prediction_hasId acc.1 post.post_id pred pid

/-- C3: on the incremental path (watermark `T` exists) the surviving list
is exactly the fetched items with `created_utc > T`, and after the whole
feed iteration every stored `post_id` was either already stored or belongs
to a fetched item strictly newer than `T` — items at or before the
watermark are never inserted. -/
theorem incremental_filter_correct
    (env : FeedEnv) (months_back limit_total t : Nat) (db db' : PostDB)
    (wm' : Option Nat) (oc : FeedOutcome)
    (h : processFeed env months_back limit_total (some t) db =
      .ok (db', wm', oc)) :
    (∀ p, p ∈ survivors env months_back limit_total (some t) ↔
      p ∈ env.recent ∧ t < p.created_utc) ∧
    (∀ pid, hasId db' pid → hasId db pid ∨
      ∃ p ∈ env.recent, t < p.created_utc ∧ p.post_id = pid) := by
  have hmem : ∀ p, p ∈ survivors env months_back limit_total (some t) ↔
      p ∈ env.recent ∧ t < p.created_utc := by
    intro p
    simp [survivors, List.mem_filter]
  refine ⟨hmem, ?_⟩
  intro pid hp
  unfold processFeed at h
  cases hc : env.crash with
  | some msg => rw [hc] at h; exact absurd h (by simp)
  | none =>
    rw [hc] at h
    simp only at h
    by_cases hempty :
        (survivors env months_back limit_total (some t)).isEmpty
    · rw [if_pos hempty] at h
      simp only [Except.ok.injEq, Prod.mk.injEq] at h
      obtain ⟨rfl, -, -⟩ := h
      exact .inl hp
    · rw [if_neg hempty] at h
      simp only [Except.ok.injEq, Prod.mk.injEq] at h
      obtain ⟨rfl, -, -⟩ := h
      -- db' is the collection after insertion and the prediction loop
      set posts := survivors env months_back limit_total (some t) with hposts
      set ins := insert_posts_batch db posts env.insertFail with hins
      have hfromIns :
          hasId ins.1 pid → hasId db pid ∨
            ∃ p ∈ env.recent, t < p.created_utc ∧ p.post_id = pid := by
        intro hq
        rcases insert_posts_batch_hasId posts db env.insertFail pid hq with
          hq' | hq'
        · exact .inl hq'
        · obtain ⟨p, hpm, he⟩ := hq'
          obtain ⟨hr, ht⟩ := (hmem p).1 hpm
          exact .inr ⟨p, hr, ht, he⟩
      by_cases hpos : 0 < ins.2.inserted
      · rw [if_pos hpos] at hp
        exact hfromIns ((predictLoop_hasId env.enableGemini posts
          ins.2.inserted env.enhanced env.hfPredict ins.1 pid).1 hp)
      · rw [if_neg hpos] at hp
        exact hfromIns hp

/-- Witness for C3: a concrete feed iteration over a watermark of 100 with
one stale and one fresh fetched post. -/
theorem incremental_filter_correct_witness :
    (∀ p, p ∈ survivors envHfFail 5 500 (some 100) ↔
      p ∈ envHfFail.recent ∧ 100 < p.created_utc) ∧
    (∀ pid,
      hasId [{ post_id := "x", title := "breaking", created_utc := 120,
               prediction := none }] pid →
      hasId [] pid ∨
        ∃ p ∈ envHfFail.recent, 100 < p.created_utc ∧ p.post_id = pid) := by
  exact incremental_filter_correct envHfFail 5 500 100 []
    [{ post_id := "x", title := "breaking", created_utc := 120,
       prediction := none }]
    (some 200) ⟨1, 1, 0, 0, 0⟩ (by rfl)

/-- C1 counterexample: a completed run over feed "politics" with watermark
100 whose only fetched item is stale (created at 50) processes the feed
(an all-zero stats entry is recorded) but leaves the watermark at 100 —
it is not upserted to the wall-clock time 200 read during the run, contrary
to the claim that the watermark is upserted even on a zero-new-item run. -/
theorem watermark_stale_after_zero_item_run :
    (run_incremental_crawl 5 500 stZeroNew ["politics"]
      (fun _ => envZeroNew) none).1.status = "completed" ∧
    (run_incremental_crawl 5 500 stZeroNew ["politics"]
      (fun _ => envZeroNew) none).1.subreddits =
      [("politics", .ok ⟨0, 0, 0, 0, 0⟩)] ∧
    (run_incremental_crawl 5 500 stZeroNew ["politics"]
      (fun _ => envZeroNew) none).2.wm "politics" = some 100 ∧
    envZeroNew.nowUpdate = 200 ∧ some 100 ≠ some (200 : Nat) := by
  refine ⟨rfl, rfl, rfl, rfl, by decide⟩

/-- C1 (amended): the watermark is upserted to the wall-clock time read at
the end of the feed's iteration exactly when the surviving item list after
the incremental filter (or backfill) is non-empty; on a zero-new-item run
no watermark write is performed and the store is untouched. -/
theorem watermark_upsert_iff_new_items
    (env : FeedEnv) (months_back limit_total : Nat) (wm : Option Nat)
    (db db' : PostDB) (w : Option Nat) (oc : FeedOutcome)
    (h : processFeed env months_back limit_total wm db = .ok (db', w, oc)) :
    (survivors env months_back limit_total wm ≠ [] →
      w = some env.nowUpdate) ∧
    (survivors env months_back limit_total wm = [] →
      w = none ∧ db' = db ∧ oc = ⟨0, 0, 0, 0, 0⟩) := by
  rcases processFeed_ok_inv h with ⟨hnil, hw, hdb, hoc⟩ | ⟨hne, hw⟩
  · exact ⟨fun hne => absurd hnil hne, fun _ => ⟨hw, hdb, hoc⟩⟩
  · exact ⟨fun _ => hw, fun hnil => absurd hnil hne⟩

/-- Witness for the amended C1 at the concrete zero-new-item environment:
the surviving list is empty, so no watermark write happens. -/
theorem watermark_upsert_iff_new_items_witness :
    survivors envZeroNew 5 500 (some 100) = [] ∧
    ((none : Option Nat) = none ∧ ([] : PostDB) = [] ∧
      (⟨0, 0, 0, 0, 0⟩ : FeedOutcome) = ⟨0, 0, 0, 0, 0⟩) := by
  refine ⟨by rfl, ?_⟩
  exact (watermark_upsert_iff_new_items envZeroNew 5 500 (some 100) [] []
    none ⟨0, 0, 0, 0, 0⟩ (by rfl)).2 (by rfl)

/-- C7: the first-time backfill never returns (hence never inserts) more
than the configured total-item cap, and every returned item's age —
`(now - created_utc)` in whole days, with 30-day months exactly as the
source computes `post_age_days / 30 <= months_back` — is within the
configured months-back window; consequently a batch insert of the backfill
result inserts at most the cap.  The hypothesis states that
`_process_post` preserves `created_utc` (the source copies the raw
timestamp into the model). -/
theorem backfill_bound
    (now months_back limit_total : Nat) (raw : List RedditPost)
    (proc : RedditPost → Option RedditPost)
    (hproc : ∀ p q, proc p = some q → q.created_utc = p.created_utc) :
    (crawl_historical now months_back limit_total raw proc).length ≤
      limit_total ∧
    (∀ q ∈ crawl_historical now months_back limit_total raw proc,
      (now - q.created_utc) / 86400 ≤ 30 * months_back) ∧
    (∀ (db : PostDB) (fail : RedditPost → Bool),
      (insert_posts_batch db
        (crawl_historical now months_back limit_total raw proc)
        fail).2.inserted ≤ limit_total) := by
  have hlen : (crawl_historical now months_back limit_total raw proc).length ≤
      limit_total := by
    calc (crawl_historical now months_back limit_total raw proc).length
        ≤ (raw.take limit_total).length := List.length_filterMap_le _ _
      _ ≤ limit_total := List.length_take_le _ _
  refine ⟨hlen, ?_, ?_⟩
  · intro q hq
    obtain ⟨p, hp, hf⟩ := List.mem_filterMap.1 hq
    by_cases hage : (now - p.created_utc) / 86400 ≤ 30 * months_back
    · rw [if_pos hage] at hf
      rw [hproc p q hf]
      exact hage
    · rw [if_neg hage] at hf
      exact Option.noConfusion hf
  · intro db fail
    have hsum := batch_stats_sum
      (crawl_historical now months_back limit_total raw proc) db fail
    omega

/-- Witness for C7: a concrete backfill capped at one item. -/
theorem backfill_bound_witness :
    (crawl_historical 1000 5 1 [freshPost, stalePost] some).length ≤ 1 ∧
    (insert_posts_batch []
      (crawl_historical 1000 5 1 [freshPost, stalePost] some)
      (fun _ => false)).2.inserted ≤ 1 := by
  have h := backfill_bound 1000 5 1 [freshPost, stalePost] some
    (by intro p q hh; injection hh with hh'; subst hh'; rfl)
  exact ⟨h.1, h.2.2 [] (fun _ => false)⟩

/-- C2: the re-entrancy guard.  If `is_running` is set, the call returns
the skipped result and performs no side effect (the state — watermark
store, post store, flag — is returned unchanged); if it is clear, the
pass runs and the flag is clear again afterwards whether the body
completed or raised, so a subsequent invocation is never skipped.  The
process state is the boolean `is_running`: idle or running. -/
theorem reentrancy_guard
    (months_back limit_total : Nat) (st : PipelineState)
    (feeds : List String) (env : String → FeedEnv)
    (outerCrash : Option String) :
    (st.is_running = true →
      (run_incremental_crawl months_back limit_total st feeds env
        outerCrash).1 =
        { status := "skipped", reason := some "already_running",
          error := none, subreddits := [] } ∧
      (run_incremental_crawl months_back limit_total st feeds env
        outerCrash).2 = st) ∧
    (st.is_running = false →
      (run_incremental_crawl months_back limit_total st feeds env
        outerCrash).2.is_running = false ∧
      ∀ oc' : Option String,
        (run_incremental_crawl months_back limit_total
          (run_incremental_crawl months_back limit_total st feeds env
            outerCrash).2 feeds env oc').1.status ≠ "skipped") := by
  constructor
  · intro h
    constructor <;> simp [run_incremental_crawl, h]
  · intro h
    have h2 : (run_incremental_crawl months_back limit_total st feeds env
        outerCrash).2.is_running = false := by
      cases oc : outerCrash <;> simp [run_incremental_crawl, h, oc]
    refine ⟨h2, ?_⟩
    intro oc'
    have hgen : ∀ Y : PipelineState, Y.is_running = false →
        (run_incremental_crawl months_back limit_total Y feeds env
          oc').1.status ≠ "skipped" := by
      intro Y hY
      cases oc2 : oc' <;> simp [run_incremental_crawl, hY, oc2]
    exact hgen _ h2

/-- Witness for C2: a busy pipeline is skipped untouched, and an idle
pipeline's pass leaves the flag cleared. -/
theorem reentrancy_guard_witness :
    (run_incremental_crawl 5 500 stBusy ["politics"]
      (fun _ => envZeroNew) none).2 = stBusy ∧
    (run_incremental_crawl 5 500 stZeroNew ["politics"]
      (fun _ => envZeroNew) none).2.is_running = false :=
  ⟨((reentrancy_guard 5 500 stBusy ["politics"] (fun _ => envZeroNew)
      none).1 rfl).2,
   ((reentrancy_guard 5 500 stZeroNew ["politics"] (fun _ => envZeroNew)
      none).2 rfl).1⟩

lemma crawlLoop_entries_feeds (months_back limit_total : Nat)
    (env : String → FeedEnv) :
    ∀ (feeds : List String) (wm : WatermarkDB) (db : PostDB),
      ((crawlLoop months_back limit_total env wm db feeds).2.2.map
        Prod.fst) = feeds := by
  intro feeds
  induction feeds with
  | nil => intro wm db; simp [crawlLoop]
  | cons f rest ih =>
    intro wm db
    cases h : processFeed (env f) months_back limit_total (wm f) db with
    | ok r =>
      obtain ⟨db', wmF, oc⟩ := r
      cases wmF <;> simp [crawlLoop, h, ih]
    | error e => simp [crawlLoop, h, ih]

/-- C8: `run_incremental_crawl` always returns a structured result whose
status is `completed`, `failed` or `skipped` (never a propagated
exception), a failed result carries an error string, and on an actual run
(idle pipeline, no outer exception) every configured feed receives a
stats entry — a feed whose processing raised is recorded as that feed's
error entry and the remaining feeds are still processed. -/
theorem run_returns_structured_status
    (months_back limit_total : Nat) (st : PipelineState)
    (feeds : List String) (env : String → FeedEnv)
    (outerCrash : Option String) :
    ((run_incremental_crawl months_back limit_total st feeds env
        outerCrash).1.status = "completed" ∨
     (run_incremental_crawl months_back limit_total st feeds env
        outerCrash).1.status = "failed" ∨
     (run_incremental_crawl months_back limit_total st feeds env
        outerCrash).1.status = "skipped") ∧
    ((run_incremental_crawl months_back limit_total st feeds env
        outerCrash).1.status = "failed" →
      (run_incremental_crawl months_back limit_total st feeds env
        outerCrash).1.error ≠ none) ∧
    (st.is_running = false → outerCrash = none →
      ((run_incremental_crawl months_back limit_total st feeds env
        outerCrash).1.subreddits.map Prod.fst) = feeds) := by
  by_cases h : st.is_running
  · refine ⟨.inr (.inr ?_), ?_, ?_⟩
    · simp [run_incremental_crawl, h]
    · simp [run_incremental_crawl, h]
    · intro hfalse; exact absurd h (by simp [hfalse])
  · simp only [Bool.not_eq_true] at h
    cases oc : outerCrash with
    | some e =>
      refine ⟨.inr (.inl ?_), ?_, ?_⟩
      · simp [run_incremental_crawl, h]
      · simp [run_incremental_crawl, h]
      · intro _ hnone
        exact Option.noConfusion hnone
    | none =>
      refine ⟨.inl ?_, ?_, ?_⟩
      · simp [run_incremental_crawl, h]
      · simp [run_incremental_crawl, h]
      · intro _ _
        simp only [run_incremental_crawl, h]
        simpa using crawlLoop_entries_feeds months_back limit_total env
          feeds st.wm st.db

/-- Witness for C8: a concrete completed run over one feed. -/
theorem run_returns_structured_status_witness :
    (run_incremental_crawl 5 500 stZeroNew ["a", "b"]
      (fun _ => envZeroNew) none).1.subreddits.map Prod.fst = ["a", "b"] :=
  ((run_returns_structured_status 5 500 stZeroNew ["a", "b"]
    (fun _ => envZeroNew) none).2.2) rfl rfl

/-- C6 counterexample: in the pipeline's default HuggingFace-only mode, a
run over one feed fetches one new post, inserts it, and the primary
classifier fails on it — the post stays in the store with no prediction
attached and the feed's stats entry counts zero predicted posts, contrary
to the claim that the item still gets a prediction persisted. -/
theorem hf_failure_item_left_without_prediction :
    (run_incremental_crawl 5 500 stHfFail ["news"]
      (fun _ => envHfFail) none).2.db =
      [{ post_id := "x", title := "breaking", created_utc := 120,
         prediction := none }] ∧
    (run_incremental_crawl 5 500 stHfFail ["news"]
      (fun _ => envHfFail) none).1.subreddits =
      [("news", .ok ⟨1, 1, 0, 0, 0⟩)] :=
  ⟨rfl, rfl⟩

lemma reconcileSpec_unknown (b : String) :
    reconcileSpec "UNKNOWN" b = "UNCERTAIN" := by
  unfold reconcileSpec
  split_ifs with h1 h2 h3 h4 <;> simp_all

lemma predictLoop_all_fail (db : PostDB) (posts : List RedditPost) (n : Nat)
    (enh : RedditPost → Option AnalysisResult) :
    predictLoop false db posts n enh (fun _ => none) = (db, 0) := by
  unfold predictLoop
  generalize (posts.filter (fun p => p.prediction = none)).take n = l
  induction l with
  | nil => simp
  | cons post rest ih => simp [ih]

/-- C6 (amended): when the primary (HuggingFace) classifier fails, the
enhanced workflow `analyze_news` does not abort — it degrades the HF
sub-result to label UNKNOWN with confidence 0, and the record
`format_for_database` would persist has confidence 0 and reconciled label
UNCERTAIN (the top-level label is the reconciled one, not UNKNOWN); in
the pipeline's default HuggingFace-only path, however, a post whose
primary prediction fails is skipped: no prediction is persisted for it
and it is not counted as predicted. -/
theorem hf_failure_degrades_without_abort
    (gem : Except String GeminiResult) :
    (analyze_news none gem).hf =
      { label := "UNKNOWN", confidence := 0 } ∧
    (format_for_database (analyze_news none gem)).confidence = 0 ∧
    (format_for_database (analyze_news none gem)).label = "UNCERTAIN" ∧
    (∀ (db : PostDB) (posts : List RedditPost) (n : Nat)
        (enh : RedditPost → Option AnalysisResult),
      predictLoop false db posts n enh (fun _ => none) = (db, 0)) := by
  refine ⟨rfl, rfl, ?_, fun db posts n enh => predictLoop_all_fail db posts n enh⟩
  show getSummaryLabel "UNKNOWN" (analyze_news none gem).gemini_classifier.label =
    "UNCERTAIN"
  rw [getSummaryLabel_eq_reconcileSpec]
  have hu : strUpper "UNKNOWN" = "UNKNOWN" := by decide
  rw [hu]
  exact reconcileSpec_unknown _

lemma wmLe_refl (w : Option Nat) : wmLe w w := by
  cases w <;> simp [wmLe]

lemma passStep_fst (months_back limit_total : Nat)
    (s : Option Nat × PostDB) (e : FeedEnv) :
    (passStep months_back limit_total s e).1 = some e.nowUpdate ∨
    (passStep months_back limit_total s e).1 = s.1 := by
  unfold passStep
  cases h : processFeed e months_back limit_total s.1 s.2 with
  | error msg => exact .inr rfl
  | ok r =>
    obtain ⟨db', w, oc⟩ := r
    cases w with
    | none => exact .inr rfl
    | some t =>
      left
      rcases processFeed_ok_inv h with ⟨-, hw, -, -⟩ | ⟨-, hw⟩
      · exact Option.noConfusion hw
      · injection hw with hw'
        rw [hw']

/-- C9: watermark monotonicity.  Every watermark write stores the
wall-clock reading of its pass; under a monotone clock (the passes' write
times are pairwise non-decreasing and at least the initially stored
value) the per-feed stored `last_crawl_time` never decreases: the
sequence of watermark states traced by any run of passes — successful
writes, zero-item passes that skip the write, or failed passes — is a
`wmLe`-chain. -/
theorem watermark_monotone_across_passes
    (months_back limit_total : Nat) (envs : List FeedEnv)
    (wm : Option Nat) (db : PostDB)
    (hwm : ∀ t, wm = some t → ∀ e ∈ envs, t ≤ e.nowUpdate)
    (hmono : envs.Pairwise (fun a b => a.nowUpdate ≤ b.nowUpdate)) :
    List.Chain' wmLe
      (List.map Prod.fst
        (List.scanl (passStep months_back limit_total) (wm, db) envs)) := by
  revert hwm hmono
  induction envs generalizing wm db with
  | nil =>
    intro hwm hmono
    rw [List.scanl_nil]
    simp
  | cons e es ih =>
    intro hwm hmono
    rw [List.scanl_cons]
    rcases List.pairwise_cons.1 hmono with ⟨hhead, htail⟩
    set s' := passStep months_back limit_total (wm, db) e with hs'
    have hhd : (List.map Prod.fst
        (List.scanl (passStep months_back limit_total) s' es)).head? =
        some s'.1 := by
      cases es <;> rfl
    rw [List.singleton_append, List.map_cons]
    refine List.chain'_cons'.2 ⟨?_, ?_⟩
    · intro y hy
      rw [hhd] at hy
      injection hy with hy'
      subst hy'
      rcases passStep_fst months_back limit_total (wm, db) e with hfst | hfst
      · rw [hfst]
        cases wm with
        | none => trivial
        | some t => exact hwm t rfl e (by simp)
      · rw [hfst]
        exact wmLe_refl wm
    · have hwm' : ∀ t, s'.1 = some t → ∀ e' ∈ es, t ≤ e'.nowUpdate := by
        intro t ht e' he'
        rcases passStep_fst months_back limit_total (wm, db) e with hfst | hfst
        · rw [hfst] at ht
          injection ht with ht'
          subst ht'
          exact hhead e' he'
        · rw [hfst] at ht
          exact hwm t ht e' (by simp [he'])
      have h := ih s'.1 s'.2 hwm' htail
      simpa using h

/-- Witness for C9: two passes over a feed starting from watermark 100,
with write clocks 200 then 200. -/
theorem watermark_monotone_across_passes_witness :
    List.Chain' wmLe
      (List.map Prod.fst
        (List.scanl (passStep 5 500) (some 100, ([] : PostDB))
          [envHfFail, envZeroNew])) := by
  refine watermark_monotone_across_passes 5 500 [envHfFail, envZeroNew]
    (some 100) [] ?_ ?_
  · intro t ht e he
    injection ht with ht'
    subst ht'
    rcases List.mem_cons.1 he with rfl | he'
    · decide
    · rcases List.mem_cons.1 he' with rfl | he''
      · decide
      · exact absurd he'' (List.not_mem_nil _)
  · refine List.pairwise_cons.2 ⟨?_, ?_⟩
    · intro e' he'
      rcases List.mem_cons.1 he' with rfl | he''
      · decide
      · exact absurd he'' (List.not_mem_nil _)
    · simp

end FactChecking
